import Mathlib

/-!
Verification of the Sylva Decors enquiry system (src/ak3.py) against its
specification.  The Python source is shallowly embedded below: the
persistence layer (PostgreSQL tables `enquiries` and `users`, plus the
Streamlit session-state fallback list) is modelled as an explicit
`AppState`, the store-facing functions (`save_enquiry`, `get_enquiries`,
`verify_login`, `add_default_owner`) become pure state-passing functions,
and the export pipeline (`generate_excel`, `generate_pdf`) is modelled by
the grid of populated spreadsheet cells respectively the document table
it produces.  Failure of the store is modelled by explicit flags
(`dbUp` for `get_db_connection` returning an engine, `readOk` and
`writeOk` for a SELECT or INSERT raising inside a `try`), mirroring the
`try/except` structure of the source.
-/

namespace Sylva

/-- One row of the `enquiries` table as the application writes and reads it
(the server-assigned `id` column is not part of the submitted data).
All fields are the exact strings stored. -/
structure Enquiry where
  name : String
  email : String
  phone : String
  furniture_type : String
  message : String
  timestamp : String
deriving Repr, DecidableEq

/-- Model of a bcrypt hash value, from the bcrypt library contract:
`hashpw` pairs the salt with the plaintext, and `checkpw` succeeds exactly
when the candidate plaintext equals the hashed one (the salt never changes
the outcome).  The `users.password` column stores such a value. -/
structure BHash where
  salt : String
  plain : String
deriving Repr, DecidableEq

/-- Modelled from the bcrypt library: `bcrypt.hashpw(pw, salt)`. -/
def hashpw (pw salt : String) : BHash := ⟨salt, pw⟩

/-- Modelled from the bcrypt library: `bcrypt.checkpw(candidate, stored)`. -/
def checkpw (candidate : String) (stored : BHash) : Bool :=
  stored.plain == candidate

/-- One row of the `users` table. -/
structure UserRow where
  username : String
  password : BHash
deriving Repr, DecidableEq

/-- The state the Python functions read and write: the two database tables,
the `st.session_state.enquiries` fallback list, and the failure mode of the
store.  `dbUp` models `get_db_connection()` returning an engine rather than
`None`; `readOk` and `writeOk` model a SELECT respectively an INSERT
succeeding rather than raising inside a `try` block. -/
structure AppState where
  db_enquiries : List Enquiry
  db_users : List UserRow
  local_enquiries : List Enquiry
  dbUp : Bool
  readOk : Bool
  writeOk : Bool
deriving Repr, DecidableEq

/-- The five options of the furniture-type multiselect in the enquiry form. -/
def menuChoices : List String :=
  ["Resin Furniture", "Wall Decors", "Functional Decors",
   "Preservation Arts", "Corporate Corner"]

/-- Embedding of the Python expression `", ".join(furniture_types)`:
the elements concatenated with the two-character separator between
consecutive elements. -/
def joinCommaSpace : List String → String
  | [] => ""
  | [c] => c
  | c :: rest => c ++ ", " ++ joinCommaSpace rest

/-- Modelled from the spec: splitting a character list back apart at every
comma-and-space separator.  The code itself never decodes the
`furniture_type` column; the spec requires the comma-and-space encoding to
reproduce the submitted category set on read-back, so the decode direction
is stated here from the words of the spec. -/
def splitCS : List Char → List (List Char)
  | [] => [[]]
  | [c] => [[c]]
  | c :: d :: rest =>
    if c = ',' ∧ d = ' ' then [] :: splitCS rest
    else
      match splitCS (d :: rest) with
      | [] => [[c]]
      | p :: ps => (c :: p) :: ps

/-- Modelled from the spec: reading the category set back out of the
comma-and-space joined `furniture_type` column. -/
def splitCategories (s : String) : List String :=
  (splitCS s.toList).map (fun l => String.mk l)

/-- Embedding of `save_enquiry(name, email, phone, furniture_types, message)`.
The wall-clock reading `datetime.now().strftime(...)` is passed in as `ts`.
Returns the Python return value paired with the state after the call. -/
def save_enquiry (st : AppState) (name email phone : String)
    (furniture_types : List String) (message ts : String) :
    Bool × AppState :=
  let furniture_type_str :=
    if furniture_types.isEmpty then "" else joinCommaSpace furniture_types
  let e : Enquiry :=
    ⟨name, email, phone, furniture_type_str, message, ts⟩
  if st.dbUp then
    if st.writeOk then
      (true, { st with db_enquiries := st.db_enquiries ++ [e] })
    else
      (true, { st with local_enquiries := st.local_enquiries ++ [e] })
  else
    (true, { st with local_enquiries := st.local_enquiries ++ [e] })

/-- Embedding of the body of `get_enquiries()` — what one uncached
evaluation computes: with an engine and a succeeding SELECT it returns the
table rows, concatenated with the session-state rows when those are
non-empty; otherwise it returns the session-state rows when non-empty, and
an empty dataframe (zero rows) as the final fallback.  The source decorates
this body with `@st.cache_data`; the decorator is `cached_get_enquiries`
below. -/
def get_enquiries (st : AppState) : List Enquiry :=
  if st.dbUp then
    if st.readOk then
      if st.local_enquiries.isEmpty then st.db_enquiries
      else st.db_enquiries ++ st.local_enquiries
    else
      if st.local_enquiries.isEmpty then [] else st.local_enquiries
  else
    if st.local_enquiries.isEmpty then [] else st.local_enquiries

/-- Embedding of the `@st.cache_data` decorator wrapping `get_enquiries()`:
the function takes no arguments, so the memo has a single slot (`none` =
not yet computed), there is no TTL, and nothing in the application ever
clears it — in particular `save_enquiry` does not.  A call returns the
cached snapshot on a hit and otherwise evaluates the body once and stores
the result; the pair is the returned dataframe and the slot afterwards. -/
def cached_get_enquiries (cache : Option (List Enquiry)) (st : AppState) :
    List Enquiry × Option (List Enquiry) :=
  match cache with
  | some df => (df, some df)
  | none => (get_enquiries st, some (get_enquiries st))

/-- The three user-visible outcomes of pressing the submit button of the
enquiry form. -/
inductive SubmitOutcome where
  | success
  | failure
  | validationError
deriving Repr, DecidableEq

/-- Embedding of the submit handler of the enquiry form:
`if name and email and phone and furniture_types:` then save (reporting
success or failure from the returned boolean), else report the
validation error.  Python truthiness of a string or list is non-emptiness. -/
def enquiry_form_submit (st : AppState) (name email phone : String)
    (furniture_types : List String) (message ts : String) :
    SubmitOutcome × AppState :=
  if name ≠ "" ∧ email ≠ "" ∧ phone ≠ "" ∧ furniture_types ≠ [] then
    let res := save_enquiry st name email phone furniture_types message ts
    if res.1 then (.success, res.2) else (.failure, res.2)
  else
    (.validationError, st)

/-- Lookup of `SELECT ... FROM users WHERE username = :username` + `fetchone`. -/
def lookupUser (users : List UserRow) (u : String) : Option UserRow :=
  users.find? (fun r => r.username == u)

/-- Embedding of `verify_login(username, password)`: `False` without an
engine or on a raised exception; otherwise look the username up and compare
with `bcrypt.checkpw`, failing closed when the row is absent.  The function
only reads state, so it returns just the boolean. -/
def verify_login (st : AppState) (username password : String) : Bool :=
  if st.dbUp then
    if st.readOk then
      match lookupUser st.db_users username with
      | some row => checkpw password row.password
      | none => false
    else false
  else false

/-- Embedding of `add_default_owner()`: without an engine return `False`;
if the SELECT raises return `False`; if an `owner` row exists do nothing and
return `True`; otherwise INSERT the bcrypt hash of `sylva123` under a fresh
salt (passed in, since `bcrypt.gensalt()` is random) and return `True`,
or `False` leaving the state unchanged when the INSERT raises. -/
def add_default_owner (st : AppState) (salt : String) : Bool × AppState :=
  if st.dbUp then
    if st.readOk then
      match lookupUser st.db_users "owner" with
      | some _ => (true, st)
      | none =>
        if st.writeOk then
          (true, { st with
            db_users := st.db_users ++ [⟨"owner", hashpw "sylva123" salt⟩] })
        else (false, st)
    else (false, st)
  else (false, st)

/-- Running the bootstrap once per salt in `salts` (one run of the script
calls it once; several runs call it several times, each with a fresh salt). -/
def runBootstrap (st : AppState) (salts : List String) : AppState :=
  salts.foldl (fun s salt => (add_default_owner s salt).2) st

/-- The rows of the `users` table whose username is `owner`. -/
def ownerRows (st : AppState) : List UserRow :=
  st.db_users.filter (fun r => r.username == "owner")

/-! ## Export pipeline: spreadsheet (`generate_excel`)

The dataframe handed to `generate_excel` is modelled by its column-name
list `cols` and its list of rows `rows`, every cell already rendered to the
string `str(value)` gives (`str` of a stored string is the string itself).
The produced workbook is modelled by the partial grid of populated cells:
`excelCell cols rows r c` is `some v` when the code wrote `v` into sheet
cell (row `r`, column `c`, both 1-based) and `none` for a blank cell. -/

/-- The banner written into cell A1 (merged across A1:G1). -/
def excelTitle : String := "Sylva Decors Inquiry List"

/-- The value the code leaves in sheet cell (`r`,`c`):
row 1 holds the title in column 1 (the merge leaves B1..G1 empty);
row 2 holds the column headers (`enumerate(..., 2)` writing at `row=r_idx`);
the data loop `enumerate(df.values, 3)` writes row `i` of the dataframe
(0-based) at sheet row `r_idx + 1 = i + 4`. -/
def excelCell (cols : List String) (rows : List (List String))
    (r c : Nat) : Option String :=
  if r = 1 then (if c = 1 then some excelTitle else none)
  else if r = 2 then cols[c - 1]?
  else if 4 ≤ r ∧ r - 4 < rows.length then
    (rows[r - 4]?.getD [])[c - 1]?
  else none

/-- openpyxl `sheet.max_row` after the writes above: 2 when there are no
data rows (title row and header row), and `N + 3` for `N ≥ 1` data rows
(the last data row sits at sheet row `N + 3`). -/
def excelMaxRow (rows : List (List String)) : Nat :=
  if rows.isEmpty then 2 else rows.length + 3

/-- openpyxl renders an empty cell as `str(None) = "None"` in the width
scan; a written cell renders as its stored string. -/
def renderCell (v : Option String) : String := v.getD "None"

/-- Embedding of the column-width loop: for column `c` the code scans the
sheet cells of rows 2 through `sheet.max_row` (the title row is excluded,
the header row is not), takes the longest `str(cell.value)`, and sets
`width = min(max_length + 2, 50)`. -/
def colWidth (cols : List String) (rows : List (List String)) (c : Nat) : Nat :=
  let lens := (List.range' 2 (excelMaxRow rows - 1)).map
    (fun r => (renderCell (excelCell cols rows r c)).length)
  min (lens.foldl max 0 + 2) 50

/-- Whether sheet row `r` holds at least one populated cell (columns 1..7). -/
def rowPopulated (cols : List String) (rows : List (List String)) (r : Nat) : Bool :=
  (List.range' 1 7).any (fun c => (excelCell cols rows r c).isSome)

/-- The list of populated sheet rows, scanned up to one past the last
written row so that nothing populated is missed. -/
def populatedRowList (cols : List String) (rows : List (List String)) : List Nat :=
  (List.range' 1 (excelMaxRow rows + 1)).filter (rowPopulated cols rows)

/-- Width of a column as the spec describes it: the scan ranges over the
data cells only (title and header rows excluded), `L` is the longest
string-rendered data value of the column, and the width is
`min(L + 2, 50)`.  Stated from the words of the spec, for comparison with
`colWidth` above. -/
def specClaimedWidth (rows : List (List String)) (c : Nat) : Nat :=
  let lens := rows.map (fun row => ((row[c - 1]?).getD "").length)
  min (lens.foldl max 0 + 2) 50

/-- Width of a column as the code actually computes it, written as a direct
formula: the longest among the rendered header cell, the rendered blank
row-3 cells (length of `"None"`, present as soon as there is a data row)
and the rendered data cells, plus 2, capped at 50. -/
def widthAmended (cols : List String) (rows : List (List String)) (c : Nat) : Nat :=
  let headerLen := (renderCell cols[c - 1]?).length
  let dataLens := rows.map (fun row => (renderCell row[c - 1]?).length)
  let L := if rows.isEmpty then headerLen
    else max headerLen (dataLens.foldl max ("None".length))
  min (L + 2) 50

/-! ## Export pipeline: document (`generate_pdf`) -/

/-- The document `generate_pdf` builds: a centered title paragraph, then a
table whose first row is the header (the dataframe columns) and whose
remaining rows are the data rows, with the fixed column widths of the
source. -/
structure PdfDoc where
  title : String
  tableRows : List (List String)
  colWidths : List Nat
deriving Repr, DecidableEq

/-- Embedding of `generate_pdf(df)`: `data = [df.columns.tolist()] +
df.values.tolist()` and `col_widths = [40, 80, 100, 80, 140, 80, 80]`. -/
def generate_pdf (cols : List String) (rows : List (List String)) : PdfDoc :=
  ⟨"Sylva Decors Inquiry List", cols :: rows, [40, 80, 100, 80, 140, 80, 80]⟩

/-- The seven column names of the `enquiries` dataframe. -/
def schemaCols : List String :=
  ["id", "name", "email", "phone", "furniture_type", "message", "timestamp"]

/-! ## Helper lemmas -/

lemma splitCS_ne_nil (l : List Char) : splitCS l ≠ [] := by
  rcases l with _ | ⟨c, _ | ⟨d, rest⟩⟩
  · simp [splitCS]
  · simp [splitCS]
  · simp only [splitCS]
    split
    · simp
    · cases hs : splitCS (d :: rest) <;> simp

lemma splitCS_comma_space (rest : List Char) :
    splitCS (',' :: ' ' :: rest) = [] :: splitCS rest := by
  simp [splitCS]

lemma splitCS_append (xs ys : List Char) (h : ∀ c ∈ xs, c ≠ ',') :
    splitCS (xs ++ ys) = (xs ++ (splitCS ys).headD []) :: (splitCS ys).tail := by
  induction xs with
  | nil =>
    cases hs : splitCS ys with
    | nil => exact absurd hs (splitCS_ne_nil ys)
    | cons p ps => simp [hs]
  | cons x xs ih =>
    have hx : x ≠ ',' := h x (by simp)
    have h' : ∀ c ∈ xs, c ≠ ',' := fun c hc => h c (by simp [hc])
    cases hxy : xs ++ ys with
    | nil =>
      rcases List.append_eq_nil.mp hxy with ⟨hxs, hys⟩
      subst hxs; subst hys
      simp [splitCS]
    | cons d rest =>
      have hcons : x :: (xs ++ ys) = x :: d :: rest := by rw [hxy]
      rw [List.cons_append, hcons]
      simp only [splitCS]
      rw [if_neg (by intro hc; exact hx hc.1)]
      have hrec : splitCS (d :: rest) = (xs ++ (splitCS ys).headD []) :: (splitCS ys).tail := by
        rw [← hxy]; exact ih h'
      rw [hrec]
      simp

lemma splitCS_join (cats : List String) (hne : cats ≠ [])
    (h : ∀ s ∈ cats, ∀ c ∈ s.toList, c ≠ ',') :
    splitCS (joinCommaSpace cats).toList = cats.map String.toList := by
  induction cats with
  | nil => exact absurd rfl hne
  | cons s rest ih =>
    cases rest with
    | nil =>
      have hs := splitCS_append s.toList [] (h s (by simp))
      simp only [joinCommaSpace, List.map]
      simpa [splitCS] using hs
    | cons t rest' =>
      have hs : ∀ c ∈ s.toList, c ≠ ',' := h s (by simp)
      have h' : ∀ x ∈ t :: rest', ∀ c ∈ x.toList, c ≠ ',' :=
        fun x hx => h x (by simp [hx])
      have htl : (s ++ ", " ++ joinCommaSpace (t :: rest')).toList
          = s.toList ++ (',' :: ' ' :: (joinCommaSpace (t :: rest')).toList) := by
        show ((s ++ ", " ++ joinCommaSpace (t :: rest')).data = _)
        simp [String.data_append, String.toList]
      simp only [joinCommaSpace]
      rw [htl, splitCS_append _ _ hs, splitCS_comma_space]
      rw [ih (by simp) h']
      simp

lemma string_mk_toList (s : String) : String.mk s.toList = s := by
  cases s; rfl

lemma splitCategories_join (cats : List String) (hne : cats ≠ [])
    (h : ∀ s ∈ cats, ∀ c ∈ s.toList, c ≠ ',') :
    splitCategories (joinCommaSpace cats) = cats := by
  unfold splitCategories
  rw [splitCS_join cats hne h, List.map_map]
  have : ∀ s ∈ cats, (String.mk ∘ String.toList) s = id s :=
    fun s _ => string_mk_toList s
  rw [List.map_congr_left this, List.map_id]

lemma menu_no_comma : ∀ s ∈ menuChoices, ∀ c ∈ s.toList, c ≠ ',' := by decide

lemma get_enquiries_eq (st : AppState) :
    get_enquiries st
      = (if st.dbUp && st.readOk then st.db_enquiries else [])
        ++ st.local_enquiries := by
  unfold get_enquiries
  cases h1 : st.dbUp <;> cases h2 : st.readOk <;>
    cases h3 : st.local_enquiries.isEmpty <;>
    simp_all [List.isEmpty_iff]

lemma save_enquiry_fst (st : AppState) (name email phone : String)
    (furniture_types : List String) (message ts : String) :
    (save_enquiry st name email phone furniture_types message ts).1 = true := by
  simp only [save_enquiry, apply_ite Prod.fst]
  split <;> (try split) <;> rfl

lemma save_enquiry_state (st : AppState) (name email phone : String)
    (cats : List String) (message ts : String) (h : cats ≠ []) :
    (save_enquiry st name email phone cats message ts).2
      = (if st.dbUp && st.writeOk then
          { st with db_enquiries := st.db_enquiries
              ++ [⟨name, email, phone, joinCommaSpace cats, message, ts⟩] }
        else
          { st with local_enquiries := st.local_enquiries
              ++ [⟨name, email, phone, joinCommaSpace cats, message, ts⟩] }) := by
  have hie : cats.isEmpty = false := by simp [h]
  simp only [save_enquiry, hie]
  cases hd : st.dbUp <;> cases hw : st.writeOk <;> simp

/-! ## C1 -/

/-- The persistence layer itself round-trips (supporting lemma for the C1
analysis): for every valid submission (non-empty name, email, phone and a
non-empty category selection drawn from the multiselect of the form) made
in a state whose store, when reachable, also answers the subsequent SELECT,
the save returns `True` and one fresh, uncached evaluation of the
retrieval body afterwards yields exactly one additional row: a permutation
of the old result with one row added whose name, email, phone, message and
timestamp equal the submitted values byte-for-byte, and whose stored
category column decodes to exactly the submitted category list.  The
decorated read path the dashboard actually calls does not enjoy this
property — see `cached_retrieval_serves_stale_snapshot`. -/
theorem saved_enquiry_roundtrip
    (st : AppState) (name email phone message ts : String) (cats : List String)
    (hname : name ≠ "") (hemail : email ≠ "") (hphone : phone ≠ "")
    (hcats : cats ≠ []) (hmenu : ∀ c ∈ cats, c ∈ menuChoices)
    (hread : st.dbUp = true → st.readOk = true) :
    ∃ e : Enquiry,
      (save_enquiry st name email phone cats message ts).1 = true ∧
      (get_enquiries (save_enquiry st name email phone cats message ts).2).Perm
        (e :: get_enquiries st) ∧
      (get_enquiries (save_enquiry st name email phone cats message ts).2).length
        = (get_enquiries st).length + 1 ∧
      e.name = name ∧ e.email = email ∧ e.phone = phone ∧
      e.message = message ∧ e.timestamp = ts ∧
      splitCategories e.furniture_type = cats ∧
      (splitCategories e.furniture_type).toFinset = cats.toFinset := by
  have hnc : ∀ s ∈ cats, ∀ c ∈ s.toList, c ≠ ',' :=
    fun s hs => menu_no_comma s (hmenu s hs)
  have hsplit : splitCategories (joinCommaSpace cats) = cats :=
    splitCategories_join cats hcats hnc
  obtain ⟨db, users, loc, dbUp, rOk, wOk⟩ := st
  have hperm :
      (get_enquiries
        (save_enquiry ⟨db, users, loc, dbUp, rOk, wOk⟩
          name email phone cats message ts).2).Perm
        ((⟨name, email, phone, joinCommaSpace cats, message, ts⟩ : Enquiry)
          :: get_enquiries ⟨db, users, loc, dbUp, rOk, wOk⟩) := by
    rw [save_enquiry_state _ name email phone cats message ts hcats]
    cases dbUp with
    | false =>
      simp [get_enquiries_eq]
    | true =>
      have hr : rOk = true := hread rfl
      subst hr
      cases wOk with
      | true =>
        simp [get_enquiries_eq, List.append_assoc]
      | false =>
        simp [get_enquiries_eq, ← List.append_assoc]
  exact ⟨⟨name, email, phone, joinCommaSpace cats, message, ts⟩,
    save_enquiry_fst .., hperm, by rw [hperm.length_eq]; rfl,
    rfl, rfl, rfl, rfl, rfl, hsplit, by rw [hsplit]⟩

/-- A healthy store with empty tables and an empty session. -/
def stReachable : AppState := ⟨[], [], [], true, true, true⟩

/-- The uncached round-trip lemma applied to a concrete valid submission
against the healthy empty store. -/
theorem saved_enquiry_roundtrip_witness :
    ∃ e : Enquiry,
      (save_enquiry stReachable "Alice" "alice@example.com" "555-0100"
        ["Wall Decors", "Resin Furniture"] "" "2025-01-01 10:00:00").1 = true ∧
      (get_enquiries (save_enquiry stReachable "Alice" "alice@example.com"
        "555-0100" ["Wall Decors", "Resin Furniture"] ""
        "2025-01-01 10:00:00").2).Perm (e :: get_enquiries stReachable) ∧
      (get_enquiries (save_enquiry stReachable "Alice" "alice@example.com"
        "555-0100" ["Wall Decors", "Resin Furniture"] ""
        "2025-01-01 10:00:00").2).length
        = (get_enquiries stReachable).length + 1 ∧
      e.name = "Alice" ∧ e.email = "alice@example.com" ∧
      e.phone = "555-0100" ∧ e.message = "" ∧
      e.timestamp = "2025-01-01 10:00:00" ∧
      splitCategories e.furniture_type = ["Wall Decors", "Resin Furniture"] ∧
      (splitCategories e.furniture_type).toFinset
        = (["Wall Decors", "Resin Furniture"] : List String).toFinset :=
  saved_enquiry_roundtrip stReachable "Alice" "alice@example.com" "555-0100"
    "" "2025-01-01 10:00:00" ["Wall Decors", "Resin Furniture"]
    (by decide) (by decide) (by decide) (by decide) (by decide) (fun _ => rfl)

/-- C1 evaluated at the failing input: the dashboard retrieves once on the
healthy empty store, which primes the `@st.cache_data` slot with the empty
snapshot; a valid submission is then saved (the row is durably inserted,
and the handler never clears the cache); the next retrieval hits the
argument-less cache and returns the stale pre-save snapshot — zero
additional rows instead of the claimed exactly one — even though a fresh
evaluation of the body would return exactly the submitted row. -/
theorem cached_retrieval_serves_stale_snapshot :
    (cached_get_enquiries none stReachable).1 = [] ∧
    (cached_get_enquiries
        (cached_get_enquiries none stReachable).2
        (save_enquiry stReachable "Alice" "alice@example.com" "555-0100"
          ["Resin Furniture"] "hello" "2025-01-01 10:00:00").2).1 = [] ∧
    ¬((cached_get_enquiries
        (cached_get_enquiries none stReachable).2
        (save_enquiry stReachable "Alice" "alice@example.com" "555-0100"
          ["Resin Furniture"] "hello" "2025-01-01 10:00:00").2).1.length
      = (cached_get_enquiries none stReachable).1.length + 1) ∧
    (save_enquiry stReachable "Alice" "alice@example.com" "555-0100"
        ["Resin Furniture"] "hello" "2025-01-01 10:00:00").1 = true ∧
    get_enquiries (save_enquiry stReachable "Alice" "alice@example.com"
        "555-0100" ["Resin Furniture"] "hello" "2025-01-01 10:00:00").2
      = [⟨"Alice", "alice@example.com", "555-0100", "Resin Furniture",
          "hello", "2025-01-01 10:00:00"⟩] := by decide

/-! ## C2 -/

/-- A state in which the store holds one enquiry but is unreachable
(`get_db_connection()` returns `None`), with an empty session. -/
def stUnreachable : AppState :=
  ⟨[⟨"Bob", "bob@example.com", "555-0199", "Wall Decors", "",
     "2025-01-02 09:00:00"⟩], [], [], false, true, true⟩

/-- Counterexample to C2 as stated: with the store unreachable (and no
session-stored rows), `get_enquiries` returns the very same empty result it
returns when the store is reachable and genuinely empty — the caller cannot
distinguish the two outcomes, and no error value is returned. -/
theorem get_enquiries_unreachable_indistinguishable :
    get_enquiries stUnreachable = get_enquiries stReachable ∧
    get_enquiries stUnreachable = [] := by decide

/-- C2 as amended: when the store is unreachable, `get_enquiries` silently
falls back to the session-stored enquiries — in particular an empty list
when none exist — rather than returning an outcome distinguishable from an
empty store. -/
theorem get_enquiries_unreachable_returns_local (st : AppState)
    (h : st.dbUp = false) :
    get_enquiries st = st.local_enquiries := by
  rw [get_enquiries_eq, h]
  simp

/-- Witness for the amended C2 at the concrete unreachable state. -/
theorem get_enquiries_unreachable_returns_local_witness :
    get_enquiries stUnreachable = stUnreachable.local_enquiries :=
  get_enquiries_unreachable_returns_local stUnreachable rfl

/-! ## C4 -/

/-- C4: a submission with an empty name, email or phone or an empty
category selection is rejected: the handler reports the validation error
and returns the state unchanged (nothing is persisted anywhere); a
submission with all required fields non-empty — the message may be empty —
is accepted with the success report. -/
theorem submit_validation (st : AppState) (name email phone : String)
    (cats : List String) (message ts : String) :
    ((name = "" ∨ email = "" ∨ phone = "" ∨ cats = []) →
      enquiry_form_submit st name email phone cats message ts
        = (SubmitOutcome.validationError, st)) ∧
    (name ≠ "" → email ≠ "" → phone ≠ "" → cats ≠ [] →
      (enquiry_form_submit st name email phone cats message ts).1
        = SubmitOutcome.success) := by
  constructor
  · intro h
    unfold enquiry_form_submit
    rw [if_neg]
    intro ⟨h1, h2, h3, h4⟩
    rcases h with h | h | h | h <;> simp_all
  · intro h1 h2 h3 h4
    unfold enquiry_form_submit
    rw [if_pos ⟨h1, h2, h3, h4⟩]
    simp [save_enquiry_fst]

/-- Witness for C4: the empty-phone submission is rejected with the state
unchanged, and the same submission with a phone and an empty message is
accepted. -/
theorem submit_validation_witness :
    (enquiry_form_submit stReachable "Alice" "alice@example.com" ""
        ["Resin Furniture"] "hello" "2025-01-01 10:00:00"
      = (SubmitOutcome.validationError, stReachable)) ∧
    ((enquiry_form_submit stReachable "Alice" "alice@example.com" "555-0100"
        ["Resin Furniture"] "" "2025-01-01 10:00:00").1
      = SubmitOutcome.success) :=
  ⟨(submit_validation stReachable "Alice" "alice@example.com" ""
      ["Resin Furniture"] "hello" "2025-01-01 10:00:00").1
        (Or.inr (Or.inr (Or.inl rfl))),
   (submit_validation stReachable "Alice" "alice@example.com" "555-0100"
      ["Resin Furniture"] "" "2025-01-01 10:00:00").2
        (by decide) (by decide) (by decide) (by decide)⟩

/-! ## C10 -/

/-- A state in which the store holds one enquiry but is unreachable, used
to show that the `True` returned by `save_enquiry` does not imply a durable
row: the write lands in session state only. -/
def stDown : AppState := ⟨[], [], [], false, true, true⟩

/-- C10: `save_enquiry` returns `True` on every input and in every store
state (reachable, write-failing or unreachable), so the failure branch of
the submit handler can never be reached, and when the store is unreachable
the returned `True` comes with no new durable row — the database table is
untouched. -/
theorem save_enquiry_always_true (st : AppState) (name email phone : String)
    (cats : List String) (message ts : String) :
    (save_enquiry st name email phone cats message ts).1 = true ∧
    (enquiry_form_submit st name email phone cats message ts).1
      ≠ SubmitOutcome.failure ∧
    (st.dbUp = false →
      (save_enquiry st name email phone cats message ts).2.db_enquiries
        = st.db_enquiries) := by
  refine ⟨save_enquiry_fst .., ?_, ?_⟩
  · unfold enquiry_form_submit
    split
    · simp [save_enquiry_fst]
    · exact fun h => by cases h
  · intro h
    unfold save_enquiry
    obtain ⟨db, users, loc, dbUp, rOk, wOk⟩ := st
    simp only at h
    subst h
    simp

/-- Witness for C10 at an unreachable store: the save still reports `True`
while the database table stays empty. -/
theorem save_enquiry_always_true_witness :
    (save_enquiry stDown "Alice" "alice@example.com" "555-0100"
      ["Resin Furniture"] "" "2025-01-01 10:00:00").1 = true ∧
    (enquiry_form_submit stDown "Alice" "alice@example.com" "555-0100"
      ["Resin Furniture"] "" "2025-01-01 10:00:00").1
      ≠ SubmitOutcome.failure ∧
    (save_enquiry stDown "Alice" "alice@example.com" "555-0100"
      ["Resin Furniture"] "" "2025-01-01 10:00:00").2.db_enquiries
      = stDown.db_enquiries :=
  ⟨(save_enquiry_always_true stDown "Alice" "alice@example.com" "555-0100"
      ["Resin Furniture"] "" "2025-01-01 10:00:00").1,
   (save_enquiry_always_true stDown "Alice" "alice@example.com" "555-0100"
      ["Resin Furniture"] "" "2025-01-01 10:00:00").2.1,
   (save_enquiry_always_true stDown "Alice" "alice@example.com" "555-0100"
      ["Resin Furniture"] "" "2025-01-01 10:00:00").2.2 rfl⟩

/-! ## C5 -/

/-- C5: immediately after a fresh bootstrap (empty `users` table, healthy
store), the default owner credential verifies, a wrong password fails, and
any username without a stored row fails closed with the same observable
outcome (`false`) as a wrong password — nothing distinguishes an unknown
user from a wrong password, and `verify_login` only reads state. -/
theorem verify_login_after_bootstrap (st : AppState) (salt : String)
    (hfresh : st.db_users = []) (hd : st.dbUp = true) (hr : st.readOk = true)
    (hw : st.writeOk = true) :
    verify_login (add_default_owner st salt).2 "owner" "sylva123" = true ∧
    verify_login (add_default_owner st salt).2 "owner" "wrong" = false ∧
    verify_login (add_default_owner st salt).2 "nouser" "anything" = false ∧
    (∀ u p, lookupUser (add_default_owner st salt).2.db_users u = none →
      verify_login (add_default_owner st salt).2 u p = false) := by
  obtain ⟨db, users, loc, dbUp, rOk, wOk⟩ := st
  subst hfresh hd hr hw
  refine ⟨?_, ?_, ?_, ?_⟩
  · simp [add_default_owner, verify_login, lookupUser, checkpw, hashpw]
  · simp [add_default_owner, verify_login, lookupUser, checkpw, hashpw]
  · simp [add_default_owner, verify_login, lookupUser, checkpw, hashpw]
  · intro u p hnone
    simp only [verify_login, hnone]
    simp

/-- Witness for C5: the three login checks after bootstrapping the healthy
empty store with a concrete salt. -/
theorem verify_login_after_bootstrap_witness :
    verify_login (add_default_owner stReachable "salt0").2
      "owner" "sylva123" = true ∧
    verify_login (add_default_owner stReachable "salt0").2
      "owner" "wrong" = false ∧
    verify_login (add_default_owner stReachable "salt0").2
      "nouser" "anything" = false :=
  ⟨(verify_login_after_bootstrap stReachable "salt0" rfl rfl rfl rfl).1,
   (verify_login_after_bootstrap stReachable "salt0" rfl rfl rfl rfl).2.1,
   (verify_login_after_bootstrap stReachable "salt0" rfl rfl rfl rfl).2.2.1⟩

/-! ## C6 -/

lemma add_default_owner_state_of_found (st : AppState) (salt : String)
    (r : UserRow) (h : lookupUser st.db_users "owner" = some r) :
    (add_default_owner st salt).2 = st := by
  unfold add_default_owner
  rw [h]
  cases hd : st.dbUp <;> cases hr : st.readOk <;> simp

lemma runBootstrap_of_found (st : AppState) (salts : List String)
    (r : UserRow) (h : lookupUser st.db_users "owner" = some r) :
    runBootstrap st salts = st := by
  induction salts with
  | nil => rfl
  | cons s rest ih =>
    show runBootstrap (add_default_owner st s).2 rest = st
    rw [add_default_owner_state_of_found st s r h]
    exact ih

lemma add_default_owner_state_of_absent (st : AppState) (salt : String)
    (hd : st.dbUp = true) (hr : st.readOk = true) (hw : st.writeOk = true)
    (h : lookupUser st.db_users "owner" = none) :
    (add_default_owner st salt).2
      = { st with db_users :=
          st.db_users ++ [⟨"owner", hashpw "sylva123" salt⟩] } := by
  unfold add_default_owner
  rw [h, hd, hr, hw]
  simp

lemma lookupUser_append_owner (users : List UserRow) (b : BHash)
    (h : lookupUser users "owner" = none) :
    lookupUser (users ++ [⟨"owner", b⟩]) "owner" = some ⟨"owner", b⟩ := by
  unfold lookupUser at h ⊢
  rw [List.find?_append, h]
  rfl

lemma ownerRows_eq_nil (st : AppState)
    (h : lookupUser st.db_users "owner" = none) : ownerRows st = [] := by
  unfold lookupUser at h
  unfold ownerRows
  rw [List.filter_eq_nil_iff]
  rw [List.find?_eq_none] at h
  exact h

lemma ownerRows_of_found (st : AppState) (r : UserRow)
    (hle : (ownerRows st).length ≤ 1)
    (h : lookupUser st.db_users "owner" = some r) : ownerRows st = [r] := by
  have hmem : r ∈ ownerRows st := by
    unfold lookupUser at h
    unfold ownerRows
    rw [List.mem_filter]
    have hp := @List.find?_some UserRow
      (fun u => u.username == "owner") r st.db_users h
    exact ⟨List.mem_of_find?_eq_some h, hp⟩
  rcases hl : ownerRows st with _ | ⟨a, rest⟩
  · rw [hl] at hmem; cases hmem
  · rw [hl] at hmem hle
    rcases rest with _ | ⟨b, rest'⟩
    · rcases List.mem_singleton.mp hmem with h'
      rw [h']
    · simp at hle

/-- C6: from any healthy-store state with at most one stored `owner` row
(the primary key guarantees this), running `add_default_owner` any positive
number of times leaves exactly one `owner` credential row; and whenever an
`owner` row already exists, every run leaves the whole state untouched —
the existing row is never overwritten. -/
theorem bootstrap_idempotent (st : AppState) (salts : List String)
    (hd : st.dbUp = true) (hr : st.readOk = true) (hw : st.writeOk = true)
    (hle : (ownerRows st).length ≤ 1) (hs : salts ≠ []) :
    (ownerRows (runBootstrap st salts)).length = 1 ∧
    (∀ r, lookupUser st.db_users "owner" = some r →
      runBootstrap st salts = st) := by
  constructor
  · rcases ho : lookupUser st.db_users "owner" with _ | r
    · rcases salts with _ | ⟨s, rest⟩
      · exact absurd rfl hs
      · show (ownerRows (runBootstrap (add_default_owner st s).2 rest)).length = 1
        rw [add_default_owner_state_of_absent st s hd hr hw ho]
        rw [runBootstrap_of_found _ rest ⟨"owner", hashpw "sylva123" s⟩
          (lookupUser_append_owner st.db_users (hashpw "sylva123" s) ho)]
        unfold ownerRows
        rw [List.filter_append]
        have hnil := ownerRows_eq_nil st ho
        unfold ownerRows at hnil
        rw [hnil]
        rfl
    · rw [runBootstrap_of_found st salts r ho, ownerRows_of_found st r hle ho]
      rfl
  · intro r hrr
    exact runBootstrap_of_found st salts r hrr

/-- A healthy-store state that already holds the bootstrapped owner row. -/
def stOwnerPresent : AppState :=
  ⟨[], [⟨"owner", hashpw "sylva123" "s0"⟩], [], true, true, true⟩

/-- Witness for C6: bootstrapping twice more on a state that already holds
the owner row keeps exactly one owner row and changes nothing. -/
theorem bootstrap_idempotent_witness :
    (ownerRows (runBootstrap stOwnerPresent ["s1", "s2"])).length = 1 ∧
    runBootstrap stOwnerPresent ["s1", "s2"] = stOwnerPresent :=
  ⟨(bootstrap_idempotent stOwnerPresent ["s1", "s2"] rfl rfl rfl
      (by decide) (by decide)).1,
   (bootstrap_idempotent stOwnerPresent ["s1", "s2"] rfl rfl rfl
      (by decide) (by decide)).2 ⟨"owner", hashpw "sylva123" "s0"⟩ (by decide)⟩

/-! ## C3 -/

/-- A single rendered data row under the seven-column schema. -/
def sampleRow : List String :=
  ["1", "Alice", "alice@example.com", "555-0100", "Resin Furniture", "hello",
   "2025-01-01 10:00:00"]

/-- C3 evaluated at the failing input (one data row): the workbook
populates sheet rows 1, 2 and 4 — the data loop pairs
`enumerate(df.values, 3)` with `row=r_idx + 1`, so the first data row lands
at sheet row 4 and row 3 stays entirely blank, contradicting the claimed
layout of data starting at row 3; the populated-row count is still
N + 2 = 3, and all seven columns are populated. -/
theorem excel_data_starts_at_row_four :
    populatedRowList schemaCols [sampleRow] = [1, 2, 4] ∧
    populatedRowList schemaCols [sampleRow] ≠ [1, 2, 3] ∧
    ((List.range' 1 7).all
      (fun c => (excelCell schemaCols [sampleRow] 3 c).isNone)) = true ∧
    excelCell schemaCols [sampleRow] 4 1 = some "1" ∧
    (populatedRowList schemaCols [sampleRow]).length = 1 + 2 ∧
    ((List.range' 1 7).all
      (fun c => (excelCell schemaCols [sampleRow] 2 c).isSome)) = true := by
  decide

/-! ## C9 -/

/-- C9: exporting the empty enquiry set through both pipelines succeeds
(the embedded pipelines are total) and yields the title and the header but
zero data rows: the workbook populates exactly rows 1 and 2, cell A1 holds
the banner, row 2 holds the seven headers, the width loop still produces a
width for every column, and the document consists of the title and a table
holding only the header row. -/
theorem empty_export_ok :
    populatedRowList schemaCols [] = [1, 2] ∧
    excelCell schemaCols [] 1 1 = some excelTitle ∧
    ((List.range' 1 7).map (fun c => excelCell schemaCols [] 2 c))
      = schemaCols.map some ∧
    ((List.range' 1 7).map (colWidth schemaCols []))
      = [4, 6, 7, 7, 16, 9, 11] ∧
    generate_pdf schemaCols []
      = ⟨"Sylva Decors Inquiry List", [schemaCols],
         [40, 80, 100, 80, 140, 80, 80]⟩ := by
  decide

/-! ## C8 -/

/-- Counterexample to C8 as stated: in the fixed document column widths,
the email column (index 2) is 100 units wide while the furniture_type
column (index 4) is 140 units wide, so the email column is not the widest
of the seven. -/
theorem pdf_email_not_widest :
    ((generate_pdf schemaCols []).colWidths)[2]? = some 100 ∧
    ((generate_pdf schemaCols []).colWidths)[4]? = some 140 ∧
    ¬(140 ≤ 100) := by decide

/-- C8 as amended: the widths are the fixed proportional split
[40, 80, 100, 80, 140, 80, 80] over (id, name, email, phone,
furniture_type, message, timestamp): id is the uniquely narrowest column,
furniture_type the uniquely widest, and email the second widest. -/
theorem pdf_width_extremes :
    (generate_pdf schemaCols []).colWidths = [40, 80, 100, 80, 140, 80, 80] ∧
    ((generate_pdf schemaCols []).colWidths)[0]? = some 40 ∧
    ((generate_pdf schemaCols []).colWidths).count 40 = 1 ∧
    (((generate_pdf schemaCols []).colWidths).all (fun w => 40 ≤ w)) = true ∧
    ((generate_pdf schemaCols []).colWidths)[4]? = some 140 ∧
    ((generate_pdf schemaCols []).colWidths).count 140 = 1 ∧
    (((generate_pdf schemaCols []).colWidths).all (fun w => w ≤ 140)) = true ∧
    ((generate_pdf schemaCols []).colWidths)[2]? = some 100 ∧
    (((generate_pdf schemaCols []).colWidths).filter
      (fun w => 100 ≤ w)).length = 2 := by decide

/-! ## C7 -/

/-- A data row with deliberately short values in every column. -/
def shortRow : List String := ["1", "Al", "a@b", "55", "ab", "hi", "ts"]

/-- Counterexample to C7 as stated: for a data row whose furniture_type
value is the two-character "ab", the claimed data-only scan gives width
min(2 + 2, 50) = 4, but the code scans from sheet row 2 onward and so
includes the 14-character header "furniture_type", producing width 16. -/
theorem width_scan_includes_header :
    colWidth schemaCols [shortRow] 5 = 16 ∧
    specClaimedWidth [shortRow] 5 = 4 ∧
    colWidth schemaCols [shortRow] 5 ≠ specClaimedWidth [shortRow] 5 := by
  decide

lemma foldl_max_max (l : List Nat) (a b : Nat) :
    l.foldl max (max a b) = max a (l.foldl max b) := by
  induction l generalizing b with
  | nil => rfl
  | cons c l ih =>
    simp only [List.foldl_cons]
    rw [max_assoc]
    exact ih (max b c)

lemma foldl_max_index (rows : List (List String)) (q : List String → Nat)
    (a : Nat) :
    ((List.range rows.length).map (fun i => q ((rows[i]?).getD []))).foldl
        max a
      = (rows.map q).foldl max a := by
  induction rows generalizing a with
  | nil => rfl
  | cons row rs ih =>
    rw [List.length_cons, List.range_succ_eq_map, List.map_cons,
      List.map_map, List.foldl_cons, List.map_cons, List.foldl_cons]
    simp only [List.getElem?_cons_zero, Option.getD_some]
    have hfun : List.map ((fun i => q (((row :: rs))[i]?.getD [])) ∘ Nat.succ)
          (List.range rs.length)
        = List.map (fun i => q ((rs[i]?).getD [])) (List.range rs.length) := by
      apply List.map_congr_left
      intro i _
      simp [Nat.succ_eq_add_one, List.getElem?_cons_succ]
    rw [hfun]
    exact ih (max a (q row))

/-- C7 as amended: the width the code assigns to column `c` equals
min(L + 2, 50) where L is the longest string-rendered value among the
header cell of the column, the blank row-3 cell (rendered as "None",
present as soon as there is at least one data row) and the data cells of
the column — the scan excludes only the title row, not the header row. -/
theorem colWidth_formula (cols : List String) (rows : List (List String))
    (c : Nat) : colWidth cols rows c = widthAmended cols rows c := by
  rcases rows with _ | ⟨row, rs⟩
  · simp [colWidth, widthAmended, excelMaxRow, excelCell, List.range']
  · simp only [colWidth, widthAmended, excelMaxRow, List.isEmpty_cons,
      if_false, Bool.false_eq_true]
    have hlen : (row :: rs).length + 3 - 1 = (rs.length + 2) + 1 := by
      simp [List.length_cons]
    rw [hlen, List.range'_succ]
    have h2 : (2 : Nat) + 1 = 3 := rfl
    rw [h2, List.range'_succ]
    have h3 : (3 : Nat) + 1 = 4 := rfl
    rw [h3]
    rw [List.map_cons, List.map_cons, List.foldl_cons, List.foldl_cons]
    have hhead : (renderCell (excelCell cols (row :: rs) 2 c)).length
        = (renderCell cols[c - 1]?).length := by
      simp [excelCell]
    have hblank : (renderCell (excelCell cols (row :: rs) 3 c)).length
        = "None".length := by
      simp [excelCell, renderCell]
    rw [hhead, hblank]
    have hcongr : (List.range' 4 (rs.length + 1)).map
          (fun r => (renderCell (excelCell cols (row :: rs) r c)).length)
        = (List.range' 4 (rs.length + 1)).map
          (fun r =>
            (renderCell (((row :: rs)[r - 4]?).getD [])[c - 1]?).length) := by
      apply List.map_congr_left
      intro r hmem
      rw [List.mem_range'] at hmem
      obtain ⟨i, hilt, hri⟩ := hmem
      have h4r : 4 ≤ r := by omega
      have hrlt : r - 4 < (row :: rs).length := by
        rw [List.length_cons]; omega
      have h1 : r ≠ 1 := by omega
      have h2' : r ≠ 2 := by omega
      have hcond : 4 ≤ r ∧ r - 4 < (row :: rs).length := ⟨h4r, hrlt⟩
      simp only [excelCell, if_neg h1, if_neg h2', if_pos hcond]
    rw [hcongr]
    have hrange : (List.range' 4 (rs.length + 1)).map
          (fun r =>
            (renderCell (((row :: rs)[r - 4]?).getD [])[c - 1]?).length)
        = (List.range (row :: rs).length).map
          (fun i =>
            (renderCell (((row :: rs)[i]?).getD [])[c - 1]?).length) := by
      rw [List.range'_eq_map_range, List.map_map, List.length_cons]
      apply List.map_congr_left
      intro i _
      simp [Nat.add_sub_cancel_left]
    rw [hrange,
      foldl_max_index (row :: rs)
        (fun l => (renderCell l[c - 1]?).length)
        (max (max 0 (renderCell cols[c - 1]?).length) ("None".length))]
    rw [Nat.zero_max, foldl_max_max]

end Sylva
